import Mathlib

/-!
Shallow embedding of the GTR (Go Tiny Router) package `src/pkg/gtr.go`.

Go maps are modelled as association lists (the constructors below only ever
produce lists with pairwise-distinct keys, mirroring Go map semantics);
`len` of a map becomes the length of the list.  Go's `url.URL` value is
modelled by the `URL` structure: `query` holds the multimap returned by the
standard library's `url.Query()` (query-string parsing is an external
collaborator, so the parsed multimap is taken as input), with values listed
in order of appearance in the raw query.
-/

namespace GTR

/-- Model of Go's `*url.URL` as consumed by the package: the fields read by
`ParseRoute` and `CreateHash` (`Host`, `Path`, `RawQuery`) plus the multimap
`url.Query()` derives from `RawQuery`. -/
structure URL where
  host : String
  path : String
  rawQuery : String
  query : List (String × List String)
deriving Repr, DecidableEq

/-- Mirrors the Go `Route` struct: `routeParams` is the position-indexed
segment map (`map[int]string`), `queryParams` the normalized query map. -/
structure Route where
  host : String
  routeParams : List (Nat × String)
  queryParams : List (String × String)
  hash : String
deriving Repr, DecidableEq

/-- Go map read returning `Option`: the `v, ok := m[k]` form. -/
def lookupAssoc {κ β : Type} [BEq κ] (m : List (κ × β)) (k : κ) : Option β :=
  (m.find? fun p => p.1 == k).map Prod.snd

/-- Go map read with the zero value: `m[k]` on a `map[int]string` yields `""`
when the key is absent. -/
def lookupSeg (m : List (Nat × String)) (k : Nat) : String :=
  (lookupAssoc m k).getD ""

/-! ## SHA-256 (models Go's `crypto/sha256` + `encoding/hex`)

Pure `Nat` arithmetic with explicit reduction modulo `2 ^ 32`. -/

/-- The word modulus of SHA-256, `2 ^ 32`. -/
def M32 : Nat := 4294967296

/-- Rotate a 32-bit word right by `n` bits. -/
def rotr32 (n x : Nat) : Nat := ((x >>> n) ||| (x <<< (32 - n))) % M32

/-- UTF-8 encoding of a single code point, as byte values. -/
def charUtf8 (c : Nat) : List Nat :=
  if c < 128 then [c]
  else if c < 2048 then [192 + c / 64, 128 + c % 64]
  else if c < 65536 then [224 + c / 4096, 128 + (c / 64) % 64, 128 + c % 64]
  else [240 + c / 262144, 128 + (c / 4096) % 64, 128 + (c / 64) % 64, 128 + c % 64]

/-- The UTF-8 bytes of a string (Go strings are UTF-8 byte sequences). -/
def strUtf8 (s : String) : List Nat :=
  (s.data.map fun c => charUtf8 c.toNat).flatten

/-- Big-endian 8-byte encoding of the 64-bit message length. -/
def be64 (n : Nat) : List Nat :=
  (List.range 8).map fun i => (n >>> (8 * (7 - i))) % 256

/-- SHA-256 message padding: `0x80`, zeros to 56 mod 64, then the bit length. -/
def sha256pad (msg : List Nat) : List Nat :=
  msg ++ [128] ++ List.replicate ((56 + 64 - (msg.length + 1) % 64) % 64) 0
      ++ be64 (8 * msg.length)

/-- Pack bytes into big-endian 32-bit words. -/
def be32words : List Nat → List Nat
  | a :: b :: c :: d :: rest => (a * 16777216 + b * 65536 + c * 256 + d) :: be32words rest
  | _ => []

/-- The function σ₀ of the SHA-256 message schedule. -/
def smallSigma0 (x : Nat) : Nat := rotr32 7 x ^^^ rotr32 18 x ^^^ (x >>> 3)

/-- The function σ₁ of the SHA-256 message schedule. -/
def smallSigma1 (x : Nat) : Nat := rotr32 17 x ^^^ rotr32 19 x ^^^ (x >>> 10)

/-- The function Σ₀ of the SHA-256 compression. -/
def bigSigma0 (x : Nat) : Nat := rotr32 2 x ^^^ rotr32 13 x ^^^ rotr32 22 x

/-- The function Σ₁ of the SHA-256 compression. -/
def bigSigma1 (x : Nat) : Nat := rotr32 6 x ^^^ rotr32 11 x ^^^ rotr32 25 x

/-- The SHA-256 `Ch` function (`¬x` as xor with the 32-bit all-ones mask). -/
def chFun (x y z : Nat) : Nat := (x &&& y) ^^^ ((x ^^^ 4294967295) &&& z)

/-- The SHA-256 `Maj` function. -/
def majFun (x y z : Nat) : Nat := (x &&& y) ^^^ (x &&& z) ^^^ (y &&& z)

/-- Extend the 16 block words with `fuel` further schedule words. -/
def extendSchedule : Nat → List Nat → List Nat
  | 0, w => w
  | n + 1, w =>
    let len := w.length
    let w16 := w.getD (len - 16) 0
    let w15 := w.getD (len - 15) 0
    let w7 := w.getD (len - 7) 0
    let w2 := w.getD (len - 2) 0
    extendSchedule n (w ++ [(w16 + smallSigma0 w15 + w7 + smallSigma1 w2) % M32])

/-- The eight 32-bit working variables of SHA-256. -/
structure Sha256State where
  a : Nat
  b : Nat
  c : Nat
  d : Nat
  e : Nat
  f : Nat
  g : Nat
  hh : Nat
deriving Repr, DecidableEq

/-- Pointwise addition of states modulo `2 ^ 32`. -/
def Sha256State.add (s t : Sha256State) : Sha256State :=
  ⟨(s.a + t.a) % M32, (s.b + t.b) % M32, (s.c + t.c) % M32, (s.d + t.d) % M32,
   (s.e + t.e) % M32, (s.f + t.f) % M32, (s.g + t.g) % M32, (s.hh + t.hh) % M32⟩

/-- The SHA-256 initial hash value. -/
def initState : Sha256State :=
  ⟨1779033703, 3144134277, 1013904242, 2773480762,
   1359893119, 2600822924, 528734635, 1541459225⟩

/-- The 64 SHA-256 round constants. -/
def sha256K : List Nat :=
  [1116352408, 1899447441, 3049323471, 3921009573, 961987163,
   1508970993, 2453635748, 2870763221, 3624381080, 310598401,
   607225278, 1426881987, 1925078388, 2162078206, 2614888103,
   3248222580, 3835390401, 4022224774, 264347078, 604807628,
   770255983, 1249150122, 1555081692, 1996064986, 2554220882,
   2821834349, 2952996808, 3210313671, 3336571891, 3584528711,
   113926993, 338241895, 666307205, 773529912, 1294757372,
   1396182291, 1695183700, 1986661051, 2177026350, 2456956037,
   2730485921, 2820302411, 3259730800, 3345764771, 3516065817,
   3600352804, 4094571909, 275423344, 430227734, 506948616,
   659060556, 883997877, 958139571, 1322822218, 1537002063,
   1747873779, 1955562222, 2024104815, 2227730452, 2361852424,
   2428436474, 2756734187, 3204031479, 3329325298]

/-- One compression pass over the paired round constants and schedule words. -/
def compressLoop : List (Nat × Nat) → Sha256State → Sha256State
  | [], st => st
  | (k, w) :: rest, st =>
    let t1 := (st.hh + bigSigma1 st.e + chFun st.e st.f st.g + k + w) % M32
    let t2 := (bigSigma0 st.a + majFun st.a st.b st.c) % M32
    compressLoop rest
      ⟨(t1 + t2) % M32, st.a, st.b, st.c, (st.d + t1) % M32, st.e, st.f, st.g⟩

/-- Process `fuel` 64-byte blocks of the padded message. -/
def processBlocks : Nat → List Nat → Sha256State → Sha256State
  | 0, _, st => st
  | n + 1, msg, st =>
    let w := extendSchedule 48 (be32words (msg.take 64))
    processBlocks n (msg.drop 64) (st.add (compressLoop (sha256K.zip w) st))

/-- Lowercase hexadecimal digit. -/
def hexChar (n : Nat) : Char :=
  if n < 10 then Char.ofNat (48 + n) else Char.ofNat (87 + n)

/-- Eight-digit lowercase hex rendering of a 32-bit word (big-endian nibbles). -/
def hex8 (x : Nat) : String :=
  String.mk ((List.range 8).map fun i => hexChar ((x >>> (28 - 4 * i)) % 16))

/-- Hex-encoded SHA-256 digest of a string's UTF-8 bytes: the composition of
Go's `sha256.Sum` and `hex.EncodeToString`. -/
def sha256hex (s : String) : String :=
  let padded := sha256pad (strUtf8 s)
  let st := processBlocks (padded.length / 64) padded initState
  hex8 st.a ++ hex8 st.b ++ hex8 st.c ++ hex8 st.d
    ++ hex8 st.e ++ hex8 st.f ++ hex8 st.g ++ hex8 st.hh

/-! ## The router itself (`gtr.go`) -/

/-- The three sentinel errors of the package. -/
inductive RouterError where
  | HOST_NOT_REGISTERED
  | NO_MATCH_FOUND
  | NO_URL_REGISTERED
deriving Repr, DecidableEq

/-- Mirrors `CreateHash`: the buffer is `url.Path`, with `"?" + url.RawQuery` appended
only when the raw query is non-empty; the hash is the hex SHA-256 digest. -/
def CreateHash (url : URL) : String :=
  sha256hex (if url.rawQuery.length > 0 then url.path ++ "?" ++ url.rawQuery else url.path)

/-- Split a character list at every occurrence of `sep`; the result is always
non-empty and on `[]` is `[[]]`, exactly Go's `strings.Split` on a one-byte
separator (and Lean's `String.splitOn`, which is not kernel-reducible). -/
def splitChar (sep : Char) : List Char → List (List Char)
  | [] => [[]]
  | c :: cs =>
    match splitChar sep cs with
    | [] => [[]]
    | r :: rs => if c = sep then [] :: r :: rs else (c :: r) :: rs

/-- Go's `strings.Split(path, "/")`. -/
def splitOnSlash (path : String) : List String :=
  (splitChar '/' path.data).map String.mk

/-- Go's `strings.HasPrefix(segment, ":")`: the first byte is `':'`, i.e. the
first character (for a one-byte ASCII pattern the two agree). -/
def hasColonHead (segment : String) : Bool :=
  segment.data.head? == some ':'

/-- The path loop of `ParseRoute`: split on `/`, keep the split index as key,
skip empty segments, store the sentinel `"?"` for `:param` segments. -/
def parseSegments (path : String) : List (Nat × String) :=
  (splitOnSlash path).enum.filterMap fun p =>
    if p.2.length = 0 then none
    else if hasColonHead p.2 then some (p.1, "?")
    else some (p.1, p.2)

/-- Lexicographic strict comparison of character lists by code point.  On
UTF-8 strings this agrees with Go's byte-wise `<` on strings, since UTF-8
preserves code-point order. -/
def charListLt : List Char → List Char → Bool
  | [], [] => false
  | [], _ :: _ => true
  | _ :: _, [] => false
  | a :: as, b :: bs =>
    if a.toNat < b.toNat then true
    else if b.toNat < a.toNat then false
    else charListLt as bs

/-- The non-strict complement of Go's `value[i] > value[j]` comparator:
`descBefore a b` holds when `a` may precede `b` in the descending order,
i.e. `a` is not less than `b`. -/
def descBefore (a b : String) : Prop := charListLt a.data b.data = false

instance : DecidableRel descBefore := fun _ _ => Bool.decEq _ _

/-- Go's `sort.Slice(value, func(i, j) { return value[i] > value[j] })`:
the values in descending order (for a total order on the values the sorted
sequence is unique, so the sorting algorithm used is immaterial). -/
def sortDesc (l : List String) : List String :=
  l.insertionSort descBefore

/-- Asymmetry of `charListLt`. -/
def charListLt_asymm : ∀ a b : List Char, charListLt a b = true → charListLt b a = false
  | [], [] => by simp [charListLt]
  | [], _ :: _ => by simp [charListLt]
  | _ :: _, [] => by simp [charListLt]
  | a :: as, b :: bs => by
    intro h
    by_cases h1 : a.toNat < b.toNat
    · simp [charListLt, h1, show ¬b.toNat < a.toNat by omega]
    · by_cases h2 : b.toNat < a.toNat
      · simp [charListLt, h1, h2] at h
      · have heq : b.toNat = a.toNat := by omega
        simp only [charListLt, if_neg h1, if_neg h2] at h
        simp only [charListLt, if_neg h2, if_neg h1]
        exact charListLt_asymm as bs h

/-- Connectivity of `charListLt`: two lists neither of which is smaller are
equal. -/
def charListLt_conn : ∀ a b : List Char, charListLt a b = false → charListLt b a = false → a = b
  | [], [] => fun _ _ => rfl
  | [], _ :: _ => by simp [charListLt]
  | _ :: _, [] => by simp [charListLt]
  | a :: as, b :: bs => by
    intro h1 h2
    by_cases hab : a.toNat < b.toNat
    · simp [charListLt, hab] at h1
    · by_cases hba : b.toNat < a.toNat
      · simp [charListLt, hba] at h2
      · have heq : a.toNat = b.toNat := by omega
        have hchar : a = b := by
          have := congrArg Char.ofNat heq
          rwa [Char.ofNat_toNat, Char.ofNat_toNat] at this
        have htail : as = bs :=
          charListLt_conn as bs
            (by simpa only [charListLt, if_neg hab, if_neg hba] using h1)
            (by simpa only [charListLt, if_neg hba, if_neg hab] using h2)
        rw [hchar, htail]

/-- Transitivity of `charListLt`. -/
def charListLt_trans :
    ∀ a b c : List Char, charListLt a b = true → charListLt b c = true → charListLt a c = true
  | [], b, [] => by
    intro h1 h2
    cases b <;> simp [charListLt] at h2
  | [], _, _ :: _ => by simp [charListLt]
  | _ :: _, b, [] => by
    intro h1 h2
    cases b <;> simp [charListLt] at h2
  | a :: as, [], c :: cs => by simp [charListLt]
  | a :: as, b :: bs, c :: cs => by
    intro h1 h2
    by_cases hab : a.toNat < b.toNat
    · by_cases hbc : b.toNat < c.toNat
      · simp [charListLt, show a.toNat < c.toNat by omega]
      · by_cases hcb : c.toNat < b.toNat
        · simp [charListLt, hbc, hcb] at h2
        · simp [charListLt, show a.toNat < c.toNat by omega]
    · by_cases hba : b.toNat < a.toNat
      · simp [charListLt, hab, hba] at h1
      · by_cases hbc : b.toNat < c.toNat
        · simp [charListLt, show a.toNat < c.toNat by omega]
        · by_cases hcb : c.toNat < b.toNat
          · simp [charListLt, hbc, hcb] at h2
          · have hac : ¬a.toNat < c.toNat := by omega
            have hca : ¬c.toNat < a.toNat := by omega
            simp only [charListLt, if_neg hab, if_neg hba] at h1
            simp only [charListLt, if_neg hbc, if_neg hcb] at h2
            simp only [charListLt, if_neg hac, if_neg hca]
            exact charListLt_trans as bs cs h1 h2

instance : IsTotal String descBefore :=
  ⟨fun a b => by
    by_cases h : charListLt a.data b.data = true
    · exact Or.inr (charListLt_asymm _ _ h)
    · exact Or.inl (by simpa [descBefore] using h)⟩

instance : IsTrans String descBefore :=
  ⟨fun a b c hab hbc => by
    unfold descBefore at hab hbc ⊢
    by_contra hac
    have hac' : charListLt a.data c.data = true := by simpa using hac
    by_cases hba : charListLt b.data a.data = true
    · have : charListLt b.data c.data = true := charListLt_trans _ _ _ hba hac'
      rw [this] at hbc
      cases hbc
    · have hdata : b.data = a.data :=
        charListLt_conn _ _ (by simpa using hba) hab
      rw [← hdata] at hac'
      rw [hac'] at hbc
      cases hbc⟩

instance : IsAntisymm String descBefore :=
  ⟨fun a b hab hba => by
    have h := charListLt_conn _ _ hab hba
    cases a
    cases b
    exact congrArg String.mk h⟩

/-- The query loop of `ParseRoute`: each key's values sorted descending and
joined with `","`. -/
def parseQueryParams (query : List (String × List String)) : List (String × String) :=
  query.map fun p => (p.1, String.intercalate "," (sortDesc p.2))

/-- Mirrors `ParseRoute`: decompose a URL into a `Route`. -/
def ParseRoute (url : URL) : Route :=
  { host := url.host
    routeParams := parseSegments url.path
    queryParams := parseQueryParams url.query
    hash := CreateHash url }

/-- The segment loop of `RouteCompare`: `"?"` adds 1, a matching literal adds
2, and a literal differing from the candidate's value at the same key (absent
reading as `""`) resets the rank to 0 and breaks. -/
def segRank : List (Nat × String) → List (Nat × String) → Nat → Nat
  | [], _, rank => rank
  | (key, value) :: rest, cand, rank =>
    if value = "?" then segRank rest cand (rank + 1)
    else if value ≠ lookupSeg cand key then 0
    else segRank rest cand (rank + 2)

/-- The query loop of `RouteCompare`: every template key must be present in
the candidate with an equal value, else the function returns 0. -/
def queryCheck : List (String × String) → List (String × String) → Bool
  | [], _ => true
  | (key, value) :: rest, cand =>
    match lookupAssoc cand key with
    | none => false
    | some val => if val ≠ value then false else queryCheck rest cand

/-- Mirrors `RouteCompare`: 0 on segment-count mismatch, otherwise the segment rank,
zeroed when the query check fails. -/
def RouteCompare (preferredRoute route : Route) : Nat :=
  if preferredRoute.routeParams.length ≠ route.routeParams.length then 0
  else
    let rank := segRank preferredRoute.routeParams route.routeParams 0
    if queryCheck preferredRoute.queryParams route.queryParams then rank else 0

/-- Mirrors the Go `RouteTable` struct; `α` is the opaque config type
(`map[string]any` in Go, never inspected by the core). -/
structure RouteTable (α : Type) where
  routes : List (Nat × List Route)
  configs : List (String × α)
deriving Repr, DecidableEq

/-- Append a route to the bucket for `l`, creating the bucket when absent
(the `rt.routes[len] = append(rt.routes[len], route)` step). -/
def insertRoute : List (Nat × List Route) → Nat → Route → List (Nat × List Route)
  | [], l, r => [(l, [r])]
  | (k, rs) :: rest, l, r =>
    if k = l then (k, rs ++ [r]) :: rest else (k, rs) :: insertRoute rest l r

/-- Mirrors `Register`: a no-op when the hash is already configured, otherwise store
the config under the hash and append the route to its segment-count bucket. -/
def Register {α : Type} (rt : RouteTable α) (url : URL) (conf : α) : RouteTable α :=
  let route := ParseRoute url
  match lookupAssoc rt.configs route.hash with
  | some _ => rt
  | none =>
    { routes := insertRoute rt.routes route.routeParams.length route
      configs := rt.configs ++ [(route.hash, conf)] }

/-- The scoring loop of `Find`: keep the best rank and route, replacing only
on a non-zero, strictly greater rank. -/
def findBest : List Route → Route → Nat → Option Route → Nat × Option Route
  | [], _, lrnk, lrt => (lrnk, lrt)
  | url :: rest, prt, lrnk, lrt =>
    let rnk := RouteCompare url prt
    if rnk ≠ 0 then
      if rnk > lrnk then findBest rest prt rnk (some url)
      else findBest rest prt lrnk lrt
    else findBest rest prt lrnk lrt

/-- Mirrors `Find`: empty table, missing bucket and all-zero bucket fail with the
three sentinel errors; otherwise the best route's hash is returned.  (The
`none` fallback arm is unreachable: a non-zero best rank implies a stored
route, where Go dereferences the pointer.) -/
def Find {α : Type} (rt : RouteTable α) (url : URL) : Except RouterError String :=
  if rt.routes.length = 0 then .error .NO_URL_REGISTERED
  else
    let prt := ParseRoute url
    match lookupAssoc rt.routes prt.routeParams.length with
    | none => .error .HOST_NOT_REGISTERED
    | some routes =>
      match findBest routes prt 0 none with
      | (0, _) => .error .NO_MATCH_FOUND
      | (_ + 1, some lrt) => .ok lrt.hash
      | (_ + 1, none) => .ok ""

/-- Mirrors `GetConfig`: direct map lookup (Go returns the zero value, here `Option`). -/
def GetConfig {α : Type} (rt : RouteTable α) (hash : String) : Option α :=
  lookupAssoc rt.configs hash

/-- Number of parameter-sentinel slots of a segment map. -/
def countParams (tl : List (Nat × String)) : Nat :=
  tl.countP fun p => p.2 == "?"

/-- Number of literal slots of a segment map. -/
def countLits (tl : List (Nat × String)) : Nat :=
  tl.countP fun p => p.2 != "?"

/-- The maximal rank any route of the list attains against `prt` (0 when the
list is empty). -/
def maxRank (l : List Route) (prt : Route) : Nat :=
  (l.map fun r => RouteCompare r prt).foldr max 0

/-! ## Helper lemmas -/

theorem segRank_eq_zero_of_mismatch {cand : List (Nat × String)} {k : Nat} {v : String}
    {tl : List (Nat × String)} (hmem : (k, v) ∈ tl) (hq : v ≠ "?")
    (hne : v ≠ lookupSeg cand k) : ∀ rank, segRank tl cand rank = 0 := by
  induction tl with
  | nil => cases hmem
  | cons hd tl ih =>
    obtain ⟨k', v'⟩ := hd
    intro rank
    rcases List.mem_cons.mp hmem with heq | hmem'
    · injection heq with hk hv
      subst hk
      subst hv
      simp [segRank, hq, hne]
    · by_cases h1 : v' = "?"
      · simpa [segRank, h1] using ih hmem' (rank + 1)
      · by_cases h2 : v' = lookupSeg cand k'
        · simp only [segRank, if_neg h1, if_neg (not_not_intro h2)]
          exact ih hmem' (rank + 2)
        · simp only [segRank, if_neg h1, if_pos h2]

theorem segRank_of_no_mismatch {cand : List (Nat × String)} {tl : List (Nat × String)}
    (h : ∀ k v, (k, v) ∈ tl → v ≠ "?" → v = lookupSeg cand k) :
    ∀ rank, segRank tl cand rank = rank + countParams tl + 2 * countLits tl := by
  induction tl with
  | nil => intro rank; simp [segRank, countParams, countLits]
  | cons hd tl ih =>
    obtain ⟨k', v'⟩ := hd
    intro rank
    have ihtail := ih fun k v hm hq => h k v (List.mem_cons_of_mem _ hm) hq
    by_cases h1 : v' = "?"
    · rw [show segRank ((k', v') :: tl) cand rank = segRank tl cand (rank + 1) by
        simp only [segRank, if_pos h1]]
      rw [ihtail (rank + 1)]
      simp [countParams, countLits, List.countP_cons, h1]
      omega
    · have hv : v' = lookupSeg cand k' := h k' v' (List.mem_cons_self _ _) h1
      rw [show segRank ((k', v') :: tl) cand rank = segRank tl cand (rank + 2) by
        simp only [segRank, if_neg h1, if_neg (not_not_intro hv)]]
      rw [ihtail (rank + 2)]
      simp [countParams, countLits, List.countP_cons, h1]
      omega

theorem queryCheck_eq_false_of_lookup {cq tq : List (String × String)} {k v : String}
    (hmem : (k, v) ∈ tq) (hne : lookupAssoc cq k ≠ some v) :
    queryCheck tq cq = false := by
  induction tq with
  | nil => cases hmem
  | cons hd tq ih =>
    obtain ⟨k', v'⟩ := hd
    rcases List.mem_cons.mp hmem with heq | hmem'
    · injection heq with hk hv
      subst hk
      subst hv
      unfold queryCheck
      cases hlk : lookupAssoc cq k with
      | none => rfl
      | some val =>
        have hval : val ≠ v := fun hc => hne (by rw [hlk, hc])
        simp [hval]
    · unfold queryCheck
      cases lookupAssoc cq k' with
      | none => rfl
      | some val =>
        by_cases hv : val = v'
        · simp [hv, ih hmem']
        · simp [hv]

theorem lookupAssoc_append {κ β : Type} [BEq κ] (l₁ l₂ : List (κ × β)) (k : κ) :
    lookupAssoc (l₁ ++ l₂) k = ((l₁.find? fun p => p.1 == k).or
      (l₂.find? fun p => p.1 == k)).map Prod.snd := by
  unfold lookupAssoc
  rw [List.find?_append]

theorem lookupAssoc_eq_none_of_no_key {β : Type} (l : List (String × β)) (k : String)
    (h : ∀ p ∈ l, p.1 ≠ k) : lookupAssoc l k = none := by
  unfold lookupAssoc
  rw [List.find?_eq_none.mpr]
  · rfl
  · intro p hp
    simpa using h p hp

theorem queryCheck_append {tq cq extra : List (String × String)}
    (hdisj : ∀ p ∈ extra, ∀ q ∈ tq, p.1 ≠ q.1) :
    queryCheck tq (cq ++ extra) = queryCheck tq cq := by
  induction tq with
  | nil => rfl
  | cons hd tq ih =>
    obtain ⟨k', v'⟩ := hd
    have hext : lookupAssoc extra k' = none :=
      lookupAssoc_eq_none_of_no_key _ _ fun p hp =>
        hdisj p hp (k', v') (List.mem_cons_self _ _)
    have hlk : lookupAssoc (cq ++ extra) k' = lookupAssoc cq k' := by
      have hext' : (extra.find? fun p => p.1 == k') = none := by
        have := hext
        unfold lookupAssoc at this
        cases hf : extra.find? fun p => p.1 == k'
        · rfl
        · rw [hf] at this
          cases this
      rw [lookupAssoc_append, hext']
      unfold lookupAssoc
      cases cq.find? fun p => p.1 == k' <;> rfl
    unfold queryCheck
    rw [hlk]
    cases lookupAssoc cq k' with
    | none => rfl
    | some val =>
      by_cases hv : val = v'
      · simp only [hv]
        simp [ih fun p hp q hq => hdisj p hp q (List.mem_cons_of_mem _ hq)]
      · simp [hv]

theorem rc_zero_of_len {T C : Route} (h : T.routeParams.length ≠ C.routeParams.length) :
    RouteCompare T C = 0 := by
  simp [RouteCompare, h]

theorem rc_zero_of_query {T C : Route}
    (h : queryCheck T.queryParams C.queryParams = false) : RouteCompare T C = 0 := by
  by_cases hlen : T.routeParams.length = C.routeParams.length
  · simp [RouteCompare, hlen, h]
  · simp [RouteCompare, hlen]

theorem rc_eq_segRank {T C : Route} (hlen : T.routeParams.length = C.routeParams.length)
    (hq : queryCheck T.queryParams C.queryParams = true) :
    RouteCompare T C = segRank T.routeParams C.routeParams 0 := by
  simp [RouteCompare, hlen, hq]

/-! ## Claims C1 to C4 -/

/-- C1: `RouteCompare` returns 0 whenever some query key of the template is
absent from the candidate or bound to a different value, and query keys
present only in the candidate never affect the result. -/
theorem routeCompare_query_rules (T C : Route) :
    (∀ k v, (k, v) ∈ T.queryParams → lookupAssoc C.queryParams k ≠ some v →
      RouteCompare T C = 0) ∧
    (∀ extra : List (String × String),
      (∀ p ∈ extra, ∀ q ∈ T.queryParams, p.1 ≠ q.1) →
      RouteCompare T { C with queryParams := C.queryParams ++ extra } = RouteCompare T C) := by
  constructor
  · intro k v hmem hne
    have hq := queryCheck_eq_false_of_lookup hmem hne
    by_cases hlen : T.routeParams.length = C.routeParams.length
    · simp [RouteCompare, hlen, hq]
    · simp [RouteCompare, hlen]
  · intro extra hdisj
    unfold RouteCompare
    rw [queryCheck_append hdisj]

/-- Witness for C1 at concrete routes. -/
theorem routeCompare_query_rules_witness :
    RouteCompare ⟨"h", [(1, "a")], [("t", "1")], "x"⟩ ⟨"h", [(1, "a")], [], "y"⟩ = 0 ∧
    RouteCompare ⟨"h", [(1, "a")], [("t", "1")], "x"⟩
        ⟨"h", [(1, "a")], [("t", "1"), ("u", "2")], "y"⟩ =
      RouteCompare ⟨"h", [(1, "a")], [("t", "1")], "x"⟩ ⟨"h", [(1, "a")], [("t", "1")], "y"⟩ :=
  ⟨(routeCompare_query_rules ⟨"h", [(1, "a")], [("t", "1")], "x"⟩
      ⟨"h", [(1, "a")], [], "y"⟩).1 "t" "1" (by decide) (by decide),
   (routeCompare_query_rules ⟨"h", [(1, "a")], [("t", "1")], "x"⟩
      ⟨"h", [(1, "a")], [("t", "1")], "y"⟩).2 [("u", "2")] (by decide)⟩

/-- C2: different segment counts always score 0. -/
theorem routeCompare_segment_count_gate (T C : Route)
    (h : T.routeParams.length ≠ C.routeParams.length) : RouteCompare T C = 0 := by
  simp [RouteCompare, h]

/-- Witness for C2 at concrete routes. -/
theorem routeCompare_segment_count_gate_witness :
    RouteCompare ⟨"h", [(1, "a")], [], "x"⟩ ⟨"h", [], [], "y"⟩ = 0 :=
  routeCompare_segment_count_gate _ _ (by decide)

/-- C3: a single mismatching literal (an absent candidate position reading as
`""`) forces the score to 0 even with equal segment counts. -/
theorem routeCompare_literal_mismatch (T C : Route) (k : Nat) (v : String)
    (hlen : T.routeParams.length = C.routeParams.length)
    (hmem : (k, v) ∈ T.routeParams) (hq : v ≠ "?")
    (hne : v ≠ lookupSeg C.routeParams k) :
    RouteCompare T C = 0 := by
  have h0 := segRank_eq_zero_of_mismatch hmem hq hne 0
  simp [RouteCompare, hlen, h0]

/-- Witness for C3 at concrete routes. -/
theorem routeCompare_literal_mismatch_witness :
    RouteCompare ⟨"h", [(0, "a"), (1, "c")], [("t", "1")], "x"⟩
      ⟨"h", [(0, "b"), (1, "c")], [("t", "1")], "y"⟩ = 0 :=
  routeCompare_literal_mismatch _ _ 0 "a" (by decide) (by decide) (by decide) (by decide)

/-- C4: a positive score is 1 per parameter slot plus 2 per literal slot, so
replacing a parameter slot by a matching literal raises the score by exactly
1; the 5-segment example scores 10 fully literal versus 9 with one
parameter. -/
theorem routeCompare_specificity :
    (∀ T C : Route, RouteCompare T C ≠ 0 →
      RouteCompare T C = countParams T.routeParams + 2 * countLits T.routeParams) ∧
    (∀ (C : Route) (pre post : List (Nat × String)) (k : Nat) (lit : String)
        (h1 h2 hs1 hs2 : String) (qp : List (String × String)),
      lit ≠ "?" → lit = lookupSeg C.routeParams k →
      RouteCompare ⟨h1, pre ++ (k, "?") :: post, qp, hs1⟩ C ≠ 0 →
      RouteCompare ⟨h2, pre ++ (k, lit) :: post, qp, hs2⟩ C =
        RouteCompare ⟨h1, pre ++ (k, "?") :: post, qp, hs1⟩ C + 1) ∧
    RouteCompare (ParseRoute ⟨"h", "/api/v1/users/ken/details", "", []⟩)
        (ParseRoute ⟨"h", "/api/v1/users/ken/details", "", []⟩) = 10 ∧
    RouteCompare (ParseRoute ⟨"h", "/api/v1/users/:username/details", "", []⟩)
        (ParseRoute ⟨"h", "/api/v1/users/ken/details", "", []⟩) = 9 := by
  have formula : ∀ T C : Route, RouteCompare T C ≠ 0 →
      RouteCompare T C = countParams T.routeParams + 2 * countLits T.routeParams := by
    intro T C hne
    have hlen : T.routeParams.length = C.routeParams.length := by
      by_contra hc
      exact hne (rc_zero_of_len hc)
    have hq : queryCheck T.queryParams C.queryParams = true := by
      by_contra hc
      exact hne (rc_zero_of_query (by simpa using hc))
    have hnomis : ∀ k v, (k, v) ∈ T.routeParams → v ≠ "?" →
        v = lookupSeg C.routeParams k := by
      intro k v hm hq'
      by_contra hcon
      refine hne ((rc_eq_segRank hlen hq).trans ?_)
      exact segRank_eq_zero_of_mismatch hm hq' hcon 0
    rw [rc_eq_segRank hlen hq, segRank_of_no_mismatch hnomis 0]
    omega
  refine ⟨formula, ?_, by decide, by decide⟩
  intro C pre post k lit h1 h2 hs1 hs2 qp hlit hmatch hne
  have hlen : (pre ++ (k, "?") :: post).length = C.routeParams.length := by
    by_contra hc
    exact hne (rc_zero_of_len hc)
  have hq : queryCheck qp C.queryParams = true := by
    by_contra hc
    exact hne (rc_zero_of_query (T := ⟨h1, pre ++ (k, "?") :: post, qp, hs1⟩)
      (by simpa using hc))
  have hnomis1 : ∀ k' v', (k', v') ∈ pre ++ (k, "?") :: post → v' ≠ "?" →
      v' = lookupSeg C.routeParams k' := by
    intro k' v' hm hq'
    by_contra hcon
    refine hne (Eq.trans (rc_eq_segRank hlen hq) ?_)
    exact segRank_eq_zero_of_mismatch hm hq' hcon 0
  have hnomis2 : ∀ k' v', (k', v') ∈ pre ++ (k, lit) :: post → v' ≠ "?" →
      v' = lookupSeg C.routeParams k' := by
    intro k' v' hm hq'
    rcases List.mem_append.mp hm with hpre | hrest
    · exact hnomis1 k' v' (List.mem_append.mpr (Or.inl hpre)) hq'
    · rcases List.mem_cons.mp hrest with heq | hpost
      · injection heq with hk hv
        subst hk
        subst hv
        exact hmatch
      · exact hnomis1 k' v'
          (List.mem_append.mpr (Or.inr (List.mem_cons_of_mem _ hpost))) hq'
  have hlen2 : (pre ++ (k, lit) :: post).length = C.routeParams.length := by
    simpa using hlen
  have e2 : RouteCompare ⟨h2, pre ++ (k, lit) :: post, qp, hs2⟩ C =
      0 + countParams (pre ++ (k, lit) :: post) + 2 * countLits (pre ++ (k, lit) :: post) :=
    (rc_eq_segRank hlen2 hq).trans (segRank_of_no_mismatch hnomis2 0)
  have e1 : RouteCompare ⟨h1, pre ++ (k, "?") :: post, qp, hs1⟩ C =
      0 + countParams (pre ++ (k, "?") :: post) + 2 * countLits (pre ++ (k, "?") :: post) :=
    (rc_eq_segRank hlen hq).trans (segRank_of_no_mismatch hnomis1 0)
  rw [e1, e2]
  simp [countParams, countLits, List.countP_append, List.countP_cons, hlit]
  omega

/-- Witness for C4 at concrete routes. -/
theorem routeCompare_specificity_witness :
    RouteCompare ⟨"h", [(1, "a"), (2, "b")], [], "x"⟩
        ⟨"h", [(1, "a"), (2, "b")], [], "y"⟩ =
      RouteCompare ⟨"h", [(1, "a"), (2, "?")], [], "x"⟩
        ⟨"h", [(1, "a"), (2, "b")], [], "y"⟩ + 1 :=
  (routeCompare_specificity.2.1 ⟨"h", [(1, "a"), (2, "b")], [], "y"⟩
    [(1, "a")] [] 2 "b" "h" "h" "x" "x" [] (by decide) (by decide) (by decide))

/-! ## Find: characterization of the scoring loop -/

theorem maxRank_cons (hd : Route) (l : List Route) (prt : Route) :
    maxRank (hd :: l) prt = max (RouteCompare hd prt) (maxRank l prt) := by
  simp [maxRank]

theorem findBest_spec (l : List Route) (prt : Route) :
    ∀ (lrnk : Nat) (lrt : Option Route),
      findBest l prt lrnk lrt =
        if lrnk < maxRank l prt
        then (maxRank l prt, l.find? fun r => RouteCompare r prt == maxRank l prt)
        else (lrnk, lrt) := by
  induction l with
  | nil =>
    intro lrnk lrt
    simp [findBest, maxRank]
  | cons hd l ih =>
    intro lrnk lrt
    have hm : maxRank (hd :: l) prt = max (RouteCompare hd prt) (maxRank l prt) :=
      maxRank_cons hd l prt
    by_cases hgt : RouteCompare hd prt > lrnk
    · have hne0 : RouteCompare hd prt ≠ 0 := by omega
      have hstep : findBest (hd :: l) prt lrnk lrt =
          findBest l prt (RouteCompare hd prt) (some hd) := by
        simp only [findBest]
        rw [if_pos hne0, if_pos hgt]
      rw [hstep, ih]
      by_cases hlt : RouteCompare hd prt < maxRank l prt
      · rw [if_pos hlt, hm]
        rw [if_pos (show lrnk < max (RouteCompare hd prt) (maxRank l prt) by omega)]
        rw [show max (RouteCompare hd prt) (maxRank l prt) = maxRank l prt by omega]
        rw [List.find?_cons_of_neg]
        simp only [beq_iff_eq]
        omega
      · rw [if_neg hlt, hm]
        rw [if_pos (show lrnk < max (RouteCompare hd prt) (maxRank l prt) by omega)]
        rw [show max (RouteCompare hd prt) (maxRank l prt) = RouteCompare hd prt by omega]
        rw [List.find?_cons_of_pos _ (by simp)]
    · have hstep : findBest (hd :: l) prt lrnk lrt = findBest l prt lrnk lrt := by
        simp only [findBest]
        by_cases h0 : RouteCompare hd prt ≠ 0
        · rw [if_pos h0, if_neg hgt]
        · rw [if_neg h0]
      rw [hstep, ih, hm]
      by_cases hlt : lrnk < maxRank l prt
      · rw [if_pos hlt]
        rw [if_pos (show lrnk < max (RouteCompare hd prt) (maxRank l prt) by omega)]
        rw [show max (RouteCompare hd prt) (maxRank l prt) = maxRank l prt by omega]
        rw [List.find?_cons_of_neg]
        simp only [beq_iff_eq]
        omega
      · rw [if_neg hlt]
        rw [if_neg (show ¬lrnk < max (RouteCompare hd prt) (maxRank l prt) by omega)]

theorem maxRank_eq_zero {l : List Route} {prt : Route}
    (h : ∀ r ∈ l, RouteCompare r prt = 0) : maxRank l prt = 0 := by
  induction l with
  | nil => rfl
  | cons hd l ih =>
    rw [maxRank_cons, h hd (List.mem_cons_self _ _),
      ih fun r hr => h r (List.mem_cons_of_mem _ hr)]
    simp

theorem find_ok_of_first {α : Type} (rt : RouteTable α) (u : URL)
    (bucket : List Route) (r : Route)
    (hne : rt.routes ≠ [])
    (hbucket : lookupAssoc rt.routes (ParseRoute u).routeParams.length = some bucket)
    (hpos : 0 < maxRank bucket (ParseRoute u))
    (hfirst : (bucket.find? fun t =>
        RouteCompare t (ParseRoute u) == maxRank bucket (ParseRoute u)) = some r) :
    Find rt u = .ok r.hash := by
  have hlen0 : ¬rt.routes.length = 0 := by simpa [List.length_eq_zero] using hne
  simp only [Find, if_neg hlen0, hbucket]
  rw [findBest_spec, if_pos hpos, hfirst]
  obtain ⟨m, hmeq⟩ : ∃ m, maxRank bucket (ParseRoute u) = m + 1 :=
    ⟨maxRank bucket (ParseRoute u) - 1, by omega⟩
  rw [hmeq]

/-! ## Claims C5 and C6 -/

/-- C5: when several templates in the bucket reach the same maximal positive
score, `Find` returns the hash of the first such template in the bucket's
(insertion) order; a later template with an equal score never replaces it. -/
theorem find_ties_favor_first {α : Type} (rt : RouteTable α) (u : URL)
    (bucket : List Route) (r : Route)
    (hne : rt.routes ≠ [])
    (hbucket : lookupAssoc rt.routes (ParseRoute u).routeParams.length = some bucket)
    (hpos : 0 < maxRank bucket (ParseRoute u))
    (hfirst : (bucket.find? fun t =>
        RouteCompare t (ParseRoute u) == maxRank bucket (ParseRoute u)) = some r) :
    Find rt u = .ok r.hash :=
  find_ok_of_first rt u bucket r hne hbucket hpos hfirst

/-- Witness for C5: two templates tie with rank 3 and the first registered
one wins. -/
theorem find_ties_favor_first_witness :
    Find (⟨[(2, [⟨"h", [(1, "a"), (2, "?")], [], "hash1"⟩,
               ⟨"h", [(1, "?"), (2, "b")], [], "hash2"⟩])], []⟩ : RouteTable Nat)
      ⟨"h", "/a/b", "", []⟩ = .ok "hash1" :=
  find_ties_favor_first _ ⟨"h", "/a/b", "", []⟩
    [⟨"h", [(1, "a"), (2, "?")], [], "hash1"⟩, ⟨"h", [(1, "?"), (2, "b")], [], "hash2"⟩]
    ⟨"h", [(1, "a"), (2, "?")], [], "hash1"⟩
    (by decide) (by decide) (by decide) (by decide)

/-- C6: the three error values of `Find` arise exactly from: empty table;
no bucket for the candidate's segment count; an all-zero bucket; otherwise
the winning template's hash is returned without error. -/
theorem find_error_taxonomy {α : Type} (rt : RouteTable α) (u : URL) :
    (rt.routes = [] → Find rt u = .error .NO_URL_REGISTERED) ∧
    (rt.routes ≠ [] →
      lookupAssoc rt.routes (ParseRoute u).routeParams.length = none →
      Find rt u = .error .HOST_NOT_REGISTERED) ∧
    (∀ bucket : List Route, rt.routes ≠ [] →
      lookupAssoc rt.routes (ParseRoute u).routeParams.length = some bucket →
      (∀ r ∈ bucket, RouteCompare r (ParseRoute u) = 0) →
      Find rt u = .error .NO_MATCH_FOUND) ∧
    (∀ (bucket : List Route) (r : Route), rt.routes ≠ [] →
      lookupAssoc rt.routes (ParseRoute u).routeParams.length = some bucket →
      0 < maxRank bucket (ParseRoute u) →
      (bucket.find? fun t =>
        RouteCompare t (ParseRoute u) == maxRank bucket (ParseRoute u)) = some r →
      Find rt u = .ok r.hash) := by
  refine ⟨?_, ?_, ?_, ?_⟩
  · intro h
    simp [Find, h]
  · intro hne hnone
    have hlen0 : ¬rt.routes.length = 0 := by simpa [List.length_eq_zero] using hne
    simp only [Find, if_neg hlen0, hnone]
  · intro bucket hne hbucket hzero
    have hlen0 : ¬rt.routes.length = 0 := by simpa [List.length_eq_zero] using hne
    simp only [Find, if_neg hlen0, hbucket]
    rw [findBest_spec, maxRank_eq_zero hzero, if_neg (by omega)]
  · intro bucket r hne hbucket hpos hfirst
    exact find_ok_of_first rt u bucket r hne hbucket hpos hfirst

/-- Witness for C6: all four branches at concrete tables. -/
theorem find_error_taxonomy_witness :
    Find (⟨[], []⟩ : RouteTable Nat) ⟨"h", "/a", "", []⟩ = .error .NO_URL_REGISTERED ∧
    Find (⟨[(1, [⟨"h", [(1, "a")], [], "h1"⟩])], []⟩ : RouteTable Nat)
      ⟨"h", "/a/b", "", []⟩ = .error .HOST_NOT_REGISTERED ∧
    Find (⟨[(1, [⟨"h", [(1, "z")], [], "h1"⟩])], []⟩ : RouteTable Nat)
      ⟨"h", "/a", "", []⟩ = .error .NO_MATCH_FOUND ∧
    Find (⟨[(1, [⟨"h", [(1, "a")], [], "h1"⟩])], []⟩ : RouteTable Nat)
      ⟨"h", "/a", "", []⟩ = .ok "h1" :=
  ⟨(find_error_taxonomy (⟨[], []⟩ : RouteTable Nat) ⟨"h", "/a", "", []⟩).1 rfl,
   (find_error_taxonomy _ ⟨"h", "/a/b", "", []⟩).2.1 (by decide) (by decide),
   (find_error_taxonomy _ ⟨"h", "/a", "", []⟩).2.2.1
     [⟨"h", [(1, "z")], [], "h1"⟩] (by decide) (by decide) (by decide),
   (find_error_taxonomy _ ⟨"h", "/a", "", []⟩).2.2.2
     [⟨"h", [(1, "a")], [], "h1"⟩] ⟨"h", [(1, "a")], [], "h1"⟩
     (by decide) (by decide) (by decide) (by decide)⟩

/-! ## Claim C7 -/

/-- C7: the hash reads only the path and the raw query (host and parsed
query are ignored); the `"?"` separator is appended exactly when the raw
query is non-empty; a `Register` whose hash is already configured leaves the
whole table unchanged, discarding the new config. -/
theorem hash_pure_register_noop {α : Type} :
    (∀ u1 u2 : URL, u1.path = u2.path → u1.rawQuery = u2.rawQuery →
      CreateHash u1 = CreateHash u2) ∧
    (∀ u : URL, u.rawQuery ≠ "" →
      CreateHash u = sha256hex (u.path ++ "?" ++ u.rawQuery)) ∧
    (∀ u : URL, u.rawQuery = "" → CreateHash u = sha256hex u.path) ∧
    (∀ (rt : RouteTable α) (u : URL) (conf : α),
      (lookupAssoc rt.configs (CreateHash u)).isSome = true → Register rt u conf = rt) := by
  refine ⟨?_, ?_, ?_, ?_⟩
  · intro u1 u2 hp hq
    unfold CreateHash
    rw [hp, hq]
  · intro u hq
    have hlen : u.rawQuery.length > 0 := by
      cases hu : u.rawQuery with
      | mk l =>
        cases l with
        | nil => exact absurd hu hq
        | cons c cs => simp [String.length]
    unfold CreateHash
    rw [if_pos hlen]
  · intro u hq
    unfold CreateHash
    rw [hq, if_neg (by decide)]
  · intro rt u conf hsome
    obtain ⟨c, hc⟩ := Option.isSome_iff_exists.mp hsome
    simp only [Register, ParseRoute, hc]

/-- Witness for C7: the hash ignores the host, and a duplicate registration
leaves the table untouched. -/
theorem hash_pure_register_noop_witness :
    CreateHash ⟨"hostA", "/p", "q=1", [("q", ["1"])]⟩ =
      CreateHash ⟨"hostB", "/p", "q=1", [("q", ["1"])]⟩ ∧
    Register (⟨[], [(CreateHash ⟨"hostA", "/p", "q=1", [("q", ["1"])]⟩, 7)]⟩ : RouteTable Nat)
        ⟨"hostA", "/p", "q=1", [("q", ["1"])]⟩ 9 =
      ⟨[], [(CreateHash ⟨"hostA", "/p", "q=1", [("q", ["1"])]⟩, 7)]⟩ :=
  ⟨(hash_pure_register_noop (α := Nat)).1 _ _ rfl rfl,
   (hash_pure_register_noop (α := Nat)).2.2.2 _ _ 9 (by
      unfold lookupAssoc
      rw [List.find?_cons_of_pos _ (by simp)]
      rfl)⟩

/-! ## Claim C8 -/

theorem sortDesc_perm (l : List String) : (sortDesc l).Perm l :=
  List.perm_insertionSort _ l

theorem sortDesc_sorted (l : List String) : (sortDesc l).Sorted descBefore :=
  List.sorted_insertionSort _ l

theorem sortDesc_congr {l l' : List String} (h : l.Perm l') : sortDesc l = sortDesc l' :=
  List.eq_of_perm_of_sorted ((sortDesc_perm l).trans (h.trans (sortDesc_perm l').symm))
    (sortDesc_sorted l) (sortDesc_sorted l')

theorem lookupAssoc_self {β : Type} {l : List (String × β)}
    (hnd : (l.map Prod.fst).Nodup) : ∀ k v, (k, v) ∈ l → lookupAssoc l k = some v := by
  induction l with
  | nil => intro k v hm; cases hm
  | cons hd l ih =>
    obtain ⟨k', v'⟩ := hd
    have hnd' : k' ∉ l.map Prod.fst ∧ (l.map Prod.fst).Nodup := by
      rw [List.map_cons] at hnd
      exact List.nodup_cons.mp hnd
    intro k v hm
    rcases List.mem_cons.mp hm with heq | hm'
    · injection heq with hk hv
      subst hk
      subst hv
      unfold lookupAssoc
      rw [List.find?_cons_of_pos _ (by simp)]
      rfl
    · have hk : ¬k' = k := by
        intro hkk
        subst hkk
        exact hnd'.1 (List.mem_map.mpr ⟨(k', v), hm', rfl⟩)
      unfold lookupAssoc
      rw [List.find?_cons_of_neg _ (by simp [hk])]
      exact ih hnd'.2 k v hm'

theorem queryCheck_true_of_lookups {tq cq : List (String × String)}
    (h : ∀ k v, (k, v) ∈ tq → lookupAssoc cq k = some v) : queryCheck tq cq = true := by
  induction tq with
  | nil => rfl
  | cons hd tq ih =>
    obtain ⟨k', v'⟩ := hd
    have hlk := h k' v' (List.mem_cons_self _ _)
    simp only [queryCheck, hlk]
    simp only [ne_eq, not_true_eq_false, if_false, ite_false]
    exact ih fun k v hm => h k v (List.mem_cons_of_mem _ hm)

theorem parseQueryParams_keys (q : List (String × List String)) :
    (parseQueryParams q).map Prod.fst = q.map Prod.fst := by
  unfold parseQueryParams
  rw [List.map_map]
  rfl

/-- C8: a multi-valued query key normalizes to its values sorted descending
and comma-joined; permuting any key's values leaves the normalized map
unchanged, and a normalized map always passes the query check against
itself; `tag=b&tag=a` and `tag=a&tag=b` both normalize to `b,a`. -/
theorem query_normalization :
    (∀ (q : List (String × List String)) (k : String) (vs : List String),
      (k, vs) ∈ q → (k, String.intercalate "," (sortDesc vs)) ∈ parseQueryParams q) ∧
    (∀ vs : List String, (sortDesc vs).Perm vs ∧ (sortDesc vs).Sorted descBefore) ∧
    (∀ q1 q2 : List (String × List String),
      List.Forall₂ (fun p1 p2 => p1.1 = p2.1 ∧ p1.2.Perm p2.2) q1 q2 →
      parseQueryParams q1 = parseQueryParams q2) ∧
    (∀ q : List (String × List String), (q.map Prod.fst).Nodup →
      queryCheck (parseQueryParams q) (parseQueryParams q) = true) ∧
    parseQueryParams [("tag", ["b", "a"])] = [("tag", "b,a")] ∧
    parseQueryParams [("tag", ["a", "b"])] = [("tag", "b,a")] := by
  refine ⟨?_, fun vs => ⟨sortDesc_perm vs, sortDesc_sorted vs⟩, ?_, ?_, by decide, by decide⟩
  · intro q k vs hm
    exact List.mem_map.mpr ⟨(k, vs), hm, rfl⟩
  · intro q1 q2 h
    induction h with
    | nil => rfl
    | @cons p1 p2 q1' q2' hp htail ih =>
      obtain ⟨hk, hperm⟩ := hp
      calc parseQueryParams (p1 :: q1')
          = (p1.1, String.intercalate "," (sortDesc p1.2)) :: parseQueryParams q1' := rfl
        _ = (p2.1, String.intercalate "," (sortDesc p2.2)) :: parseQueryParams q2' := by
            rw [hk, sortDesc_congr hperm, ih]
        _ = parseQueryParams (p2 :: q2') := rfl
  · intro q hnd
    have hnd' : ((parseQueryParams q).map Prod.fst).Nodup := by
      rw [parseQueryParams_keys]
      exact hnd
    exact queryCheck_true_of_lookups fun k v hm => lookupAssoc_self hnd' k v hm

/-- Witness for C8 at a concrete query map. -/
theorem query_normalization_witness :
    ("tag", String.intercalate "," (sortDesc ["a", "b"])) ∈
      parseQueryParams [("tag", ["a", "b"])] ∧
    parseQueryParams [("tag", ["a", "b"])] = parseQueryParams [("tag", ["b", "a"])] ∧
    queryCheck (parseQueryParams [("tag", ["a", "b"]), ("k", ["v"])])
      (parseQueryParams [("tag", ["a", "b"]), ("k", ["v"])]) = true :=
  ⟨query_normalization.1 _ "tag" ["a", "b"] (by decide),
   query_normalization.2.2.1 _ _
     (List.Forall₂.cons ⟨rfl, List.Perm.swap "b" "a" []⟩ List.Forall₂.nil),
   query_normalization.2.2.2.1 _ (by decide)⟩

/-! ## Claim C9 (corrected: the split of a path with a leading slash has the
empty string at index 0, so `/a//b` stores at indices 1 and 3, not 0 and 2) -/

/-- C9 counterexample: decomposing `/a//b` stores nothing at position 0 and
stores `"a"` at position 1, contradicting the claimed layout 0 = `"a"`,
2 = `"b"`, nothing at 1. -/
theorem decompose_indexing_counterexample :
    lookupAssoc (ParseRoute ⟨"h", "/a//b", "", []⟩).routeParams 0 = none ∧
    lookupAssoc (ParseRoute ⟨"h", "/a//b", "", []⟩).routeParams 1 = some "a" ∧
    lookupAssoc (ParseRoute ⟨"h", "/a//b", "", []⟩).routeParams 2 = none ∧
    lookupAssoc (ParseRoute ⟨"h", "/a//b", "", []⟩).routeParams 3 = some "b" :=
  ⟨by decide, by decide, by decide, by decide⟩

/-- C9 amended: each stored segment is keyed by its index in the raw
`/`-split (for `/a//b` the split is `["", "a", "", "b"]`), empty segments
being skipped without storing; so `/a//b` yields `"a"` at 1 and `"b"` at 3. -/
theorem decompose_split_indexing :
    (∀ (path : String) (i : Nat) (v : String),
      (i, v) ∈ parseSegments path ↔
        ∃ seg, (splitOnSlash path)[i]? = some seg ∧ seg.length ≠ 0 ∧
          v = if hasColonHead seg then "?" else seg) ∧
    parseSegments "/a//b" = [(1, "a"), (3, "b")] := by
  constructor
  · intro path i v
    unfold parseSegments
    rw [List.mem_filterMap]
    constructor
    · rintro ⟨⟨j, seg⟩, hmem, hf⟩
      by_cases h0 : seg.length = 0
      · simp [h0] at hf
      · by_cases hc : hasColonHead seg
        · simp only [if_neg h0, if_pos hc] at hf
          injection hf with hf'
          injection hf' with hj hv
          subst hj
          refine ⟨seg, List.mk_mem_enum_iff_getElem?.mp hmem, h0, ?_⟩
          rw [if_pos hc]
          exact hv.symm
        · simp only [if_neg h0, if_neg hc] at hf
          injection hf with hf'
          injection hf' with hj hv
          subst hj
          refine ⟨seg, List.mk_mem_enum_iff_getElem?.mp hmem, h0, ?_⟩
          rw [if_neg hc]
          exact hv.symm
    · rintro ⟨seg, hget, h0, hv⟩
      refine ⟨(i, seg), List.mk_mem_enum_iff_getElem?.mpr hget, ?_⟩
      by_cases hc : hasColonHead seg
      · simp only [if_neg h0, if_pos hc]
        rw [hv, if_pos hc]
      · simp only [if_neg h0, if_neg hc]
        rw [hv, if_neg hc]
  · decide

/-! ## Claim C10 -/

/-- C10: a parameter slot contributes 1 without consulting the candidate's
segment map, so a template can positively match a candidate occupying
different positions: `/:a/:b` (slots 1, 2) scores 2 against `/x//y`
(slots 1, 3), whose map has no entry at the parameter position 2. -/
theorem param_slot_ignores_candidate :
    (∀ (k : Nat) (rest cand : List (Nat × String)) (rank : Nat),
      segRank ((k, "?") :: rest) cand rank = segRank rest cand (rank + 1)) ∧
    RouteCompare (ParseRoute ⟨"h", "/:a/:b", "", []⟩)
      (ParseRoute ⟨"h", "/x//y", "", []⟩) = 2 ∧
    lookupAssoc (ParseRoute ⟨"h", "/x//y", "", []⟩).routeParams 2 = none :=
  ⟨fun k rest cand rank => by simp [segRank], by decide, by decide⟩

end GTR
